import Mathlib

/-!
Verification of the tool functions and dispatch loop of
`src/agent/langchain_agent.py`.

The pure tool functions (`hash_string`, `calculate_file_size`,
`get_day_of_week`, `calculate_days_between`) are embedded directly.
Python machine-level details are modelled as follows:

* Python `int` is `Int`; Python `%` and `//` on ints agree with `Int.emod`
  and `Int.ediv` for the positive moduli used here.
* The standard-library `datetime` date type is embedded by its documented
  proleptic-Gregorian algorithms (`toordinal`, leap years, month lengths)
  with the CPython-supported year range 1..9999.
* The `hashlib` digest functions are abstract byte-sequence functions
  (a `HashLib` record); `hexdigest` is the lowercase hexadecimal rendering
  of the digest bytes.
* The float arithmetic in `calculate_file_size` and `calculate_days_between`
  (division by 1024, division by 7 and 365.25, `round(x, 2)`) is embedded
  over `ℚ`.  The lossy step `float(size_bytes)` is modelled explicitly by
  `pyFloat`: round to nearest 53-bit significand with ties to even, raising
  `OverflowError` when the rounded magnitude reaches `2^1024`, exactly as
  documented for CPython's int-to-float conversion.  The remaining float
  operations are exact: dividing a float by 1024 only decrements its
  exponent (all loop values stay normal), the day counts of
  `calculate_days_between` are below `2^53`, and no decimal-rounding step
  can sit on a representable tie (a dyadic or small-denominator rational
  never equals an odd multiple of `1/200`), so `ℚ` reproduces the float
  results there.
* The remote model client is an abstract oracle from message histories to
  replies, which may fail (`Except`); the registered tools are an abstract
  registry of named fallible functions.  Exceptions are modelled by the
  `Except String` error monad, and the single top-level `try/except` of
  `invoke_agent` is the final `match` converting an `error` into an
  `"Error: ..."` result payload.
-/

deriving instance DecidableEq for Except

/-! ### Calendar model (CPython `datetime.date`) -/

/-- Leap year test, as in `datetime`: divisible by 4 and not by 100 unless by 400. -/
def isLeap (year : Int) : Bool :=
  year % 4 == 0 && (year % 100 != 0 || year % 400 == 0)

/-- Number of days in a month (29 in February of a leap year). -/
def daysInMonth (year month : Int) : Int :=
  if month = 2 then (if isLeap year then 29 else 28)
  else if month = 4 ∨ month = 6 ∨ month = 9 ∨ month = 11 then 30
  else 31

/-- Days in the given year strictly before the first of the given month. -/
def daysBeforeMonth (year month : Int) : Int :=
  (if month ≤ 1 then 0 else if month = 2 then 31 else if month = 3 then 59
   else if month = 4 then 90 else if month = 5 then 120 else if month = 6 then 151
   else if month = 7 then 181 else if month = 8 then 212 else if month = 9 then 243
   else if month = 10 then 273 else if month = 11 then 304 else 334)
  + (if 2 < month ∧ isLeap year = true then 1 else 0)

/-- Days before January 1 of the given year, counting from year 1. -/
def daysBeforeYear (year : Int) : Int :=
  365 * (year - 1) + (year - 1) / 4 - (year - 1) / 100 + (year - 1) / 400

/-- Proleptic Gregorian ordinal of a date: `0001-01-01` is day 1
(`datetime.date.toordinal`). -/
def toordinal (year month day : Int) : Int :=
  daysBeforeYear year + daysBeforeMonth year month + day

/-- The dates accepted by the CPython `datetime.date` constructor:
a real proleptic Gregorian date whose year lies in `1..9999`. -/
def pyDateValid (year month day : Int) : Prop :=
  1 ≤ year ∧ year ≤ 9999 ∧ 1 ≤ month ∧ month ≤ 12 ∧ 1 ≤ day ∧ day ≤ daysInMonth year month

instance (year month day : Int) : Decidable (pyDateValid year month day) := by
  unfold pyDateValid; infer_instance

/-- A real proleptic Gregorian date, with no year restriction. -/
def gregDateValid (year month day : Int) : Prop :=
  1 ≤ month ∧ month ≤ 12 ∧ 1 ≤ day ∧ day ≤ daysInMonth year month

instance (year month day : Int) : Decidable (gregDateValid year month day) := by
  unfold gregDateValid; infer_instance

/-- Weekday names in `strftime("%A")` order starting from Monday;
CPython computes the weekday of a date as `(toordinal + 6) % 7` with Monday = 0. -/
def dayNamesMon : List String :=
  ["Monday", "Tuesday", "Wednesday", "Thursday", "Friday", "Saturday", "Sunday"]

/-- Weekday index of a date as CPython computes it (`0` = Monday). -/
def pyWeekdayIdx (year month day : Int) : Int :=
  (toordinal year month day + 6) % 7

/-- The `strftime("%A")` weekday name of a date, as CPython computes it. -/
def pyDayName (year month day : Int) : String :=
  dayNamesMon.getD (pyWeekdayIdx year month day).toNat "Monday"

/-! ### Independent weekday specification: Zeller's congruence

`gregDayName` is a second, independent definition of the proleptic Gregorian
weekday of a date, following the classical Zeller congruence rather than the
day-count used by the code's `datetime` dependency.  The two are proved to
agree on every valid date. -/

/-- Zeller's year: January and February count as months 13/14 of the previous year. -/
def zellerYear (year month : Int) : Int := if month ≤ 2 then year - 1 else year

/-- Zeller's month numbering (March = 3 .. February = 14). -/
def zellerMonth (month : Int) : Int := if month ≤ 2 then month + 12 else month

/-- Zeller's congruence for the Gregorian calendar; `0` = Saturday. -/
def zellerIndex (year month day : Int) : Int :=
  (day + 13 * (zellerMonth month + 1) / 5 + zellerYear year month
    + zellerYear year month / 4 - zellerYear year month / 100
    + zellerYear year month / 400) % 7

/-- Weekday names in Zeller order starting from Saturday. -/
def dayNamesSat : List String :=
  ["Saturday", "Sunday", "Monday", "Tuesday", "Wednesday", "Thursday", "Friday"]

/-- Weekday name of a proleptic Gregorian date per Zeller's congruence. -/
def gregDayName (year month day : Int) : String :=
  dayNamesSat.getD (zellerIndex year month day).toNat "Saturday"

/-- Unfolding of the Boolean leap-year test into arithmetic form. -/
lemma isLeap_true_iff (year : Int) :
    isLeap year = true ↔ (year % 4 = 0 ∧ (year % 100 ≠ 0 ∨ year % 400 = 0)) := by
  simp [isLeap]

/-- The CPython day-count weekday and the Zeller weekday index agree (up to the
rotation between the Monday-based and Saturday-based numbering). -/
lemma weekday_core (y m d : Int) (hy : 1 ≤ y) (hm1 : 1 ≤ m) (hm2 : m ≤ 12) :
    pyWeekdayIdx y m d = (zellerIndex y m d + 5) % 7 := by
  unfold pyWeekdayIdx zellerIndex zellerYear zellerMonth toordinal daysBeforeYear daysBeforeMonth
  cases hLb : isLeap y with
  | false =>
    have hL : ¬(y % 4 = 0 ∧ (y % 100 ≠ 0 ∨ y % 400 = 0)) := by
      rw [← isLeap_true_iff]; simp [hLb]
    rcases eq_or_ne (y % 4) 0 with h4 | h4
    · have h100 : y % 100 = 0 := by tauto
      have h400 : y % 400 ≠ 0 := by tauto
      have b1 : y / 4 = (y - 1) / 4 + 1 := by omega
      have b2 : y / 100 = (y - 1) / 100 + 1 := by omega
      have b3 : y / 400 = (y - 1) / 400 := by omega
      interval_cases m <;> norm_num <;> omega
    · have b1 : y / 4 = (y - 1) / 4 := by omega
      have b2 : y / 100 = (y - 1) / 100 := by omega
      have b3 : y / 400 = (y - 1) / 400 := by omega
      interval_cases m <;> norm_num <;> omega
  | true =>
    have hL : y % 4 = 0 ∧ (y % 100 ≠ 0 ∨ y % 400 = 0) := by
      rw [← isLeap_true_iff]; exact hLb
    obtain ⟨h4, h100400⟩ := hL
    rcases h100400 with h100 | h400
    · have b1 : y / 4 = (y - 1) / 4 + 1 := by omega
      have b2 : y / 100 = (y - 1) / 100 := by omega
      have b3 : y / 400 = (y - 1) / 400 := by omega
      interval_cases m <;> norm_num <;> omega
    · have h100 : y % 100 = 0 := by omega
      have b1 : y / 4 = (y - 1) / 4 + 1 := by omega
      have b2 : y / 100 = (y - 1) / 100 + 1 := by omega
      have b3 : y / 400 = (y - 1) / 400 + 1 := by omega
      interval_cases m <;> norm_num <;> omega

/-- On every valid month/day with a positive year, the weekday name computed
through the CPython day count equals the weekday name given by Zeller's
congruence. -/
lemma weekday_name_eq (y m d : Int) (hy : 1 ≤ y) (hm1 : 1 ≤ m) (hm2 : m ≤ 12) :
    pyDayName y m d = gregDayName y m d := by
  unfold pyDayName gregDayName
  rw [weekday_core y m d hy hm1 hm2]
  have h0 : 0 ≤ zellerIndex y m d := by
    unfold zellerIndex
    exact Int.emod_nonneg _ (by norm_num)
  have h7 : zellerIndex y m d < 7 := by
    unfold zellerIndex
    exact Int.emod_lt_of_pos _ (by norm_num)
  generalize zellerIndex y m d = z at h0 h7 ⊢
  interval_cases z <;> rfl

/-- Zero padding to two digits, as Python `f"{n:02d}"` renders the
months and days in range. -/
def pad2 (n : Int) : String :=
  if 0 ≤ n ∧ n < 10 then "0" ++ toString n else toString n

/-- The `ValueError` message produced by the CPython `datetime.date`
constructor on an invalid (year, month, day): year range is checked first,
then the month, then the day. -/
def dateErrorMsg (year month day : Int) : String :=
  if year < 1 ∨ 9999 < year then "year " ++ toString year ++ " is out of range"
  else if month < 1 ∨ 12 < month then "month must be in 1..12"
  else "day is out of range for month"

/-- Embedding of the tool `get_day_of_week` (`langchain_agent.py`, lines 77-91):
construct `datetime.date(year, month, day)`, format the weekday with
`strftime("%A")`, and convert the `ValueError` of an invalid date into an
`"Invalid date: ..."` string result.  The unused `day` argument of
`dateErrorMsg` reflects that the message depends only on which check fails. -/
def get_day_of_week (year month day : Int) : String :=
  if pyDateValid year month day then
    toString year ++ "-" ++ pad2 month ++ "-" ++ pad2 day ++ " was/is a "
      ++ pyDayName year month day
  else "Invalid date: " ++ dateErrorMsg year month day

example : get_day_of_week 2021 2 3 = "2021-02-03 was/is a Wednesday" := by decide
example : get_day_of_week 2021 2 30 = "Invalid date: day is out of range for month" := by decide
example : get_day_of_week 2000 1 1 = "2000-01-01 was/is a Saturday" := by decide
example : get_day_of_week 10000 1 1 = "Invalid date: year 10000 is out of range" := by decide

/-! ### Hashing model (`hash_string`) -/

/-- `text.encode('utf-8')` as a byte list. -/
def utf8Bytes (text : String) : List Nat :=
  text.toUTF8.toList.map (fun b => b.toNat)

/-- Lowercase hexadecimal digit characters in value order. -/
def hexDigits : List Char := "0123456789abcdef".data

/-- The lowercase hex digit of a value below 16. -/
def hexDigitChar (n : Nat) : Char := hexDigits.getD n '0'

/-- `hexdigest()` of a digest byte sequence: two lowercase hex digits per byte. -/
def hexOfBytes (bs : List Nat) : String :=
  String.mk (bs.flatMap (fun b => [hexDigitChar (b / 16 % 16), hexDigitChar (b % 16)]))

/-- The four `hashlib` digest functions used by `hash_string`, abstract:
each maps the UTF-8 byte sequence of the input to the digest byte sequence.
Their internals are external library code; only dispatch, encoding and hex
rendering belong to the repository. -/
structure HashLib where
  md5 : List Nat → List Nat
  sha1 : List Nat → List Nat
  sha256 : List Nat → List Nat
  sha512 : List Nat → List Nat

/-- Embedding of the tool `hash_string` (`langchain_agent.py`, lines 37-56),
parameterised by the abstract `hashlib` digests. -/
def hash_string (H : HashLib) (text : String) (algorithm : String) : String :=
  let text_bytes := utf8Bytes text
  if algorithm = "md5" then hexOfBytes (H.md5 text_bytes)
  else if algorithm = "sha1" then hexOfBytes (H.sha1 text_bytes)
  else if algorithm = "sha256" then hexOfBytes (H.sha256 text_bytes)
  else if algorithm = "sha512" then hexOfBytes (H.sha512 text_bytes)
  else "Unsupported algorithm: " ++ algorithm ++ ". Use md5, sha1, sha256, or sha512."

/-- `hash_string` with the algorithm argument left to its declared
default `"sha256"`. -/
def hash_string_default (H : HashLib) (text : String) : String :=
  hash_string H text "sha256"

/-- Every character `hexOfBytes` emits is a lowercase hex digit. -/
lemma hexOfBytes_chars (bs : List Nat) :
    ∀ c ∈ (hexOfBytes bs).data, c ∈ hexDigits := by
  have hdig : ∀ n : Nat, hexDigitChar n ∈ hexDigits := by
    intro n
    rcases lt_or_ge n 16 with h | h
    · interval_cases n <;> decide
    · have : hexDigitChar n = '0' := by
        unfold hexDigitChar
        apply List.getD_eq_default
        have hl : hexDigits.length = 16 := by decide
        omega
      rw [this]; decide
  intro c hc
  simp only [hexOfBytes, String.data] at hc
  rcases List.mem_flatMap.mp hc with ⟨b, _, hcb⟩
  rcases List.mem_cons.mp hcb with rfl | hcb
  · exact hdig _
  rcases List.mem_cons.mp hcb with rfl | hcb
  · exact hdig _
  · simp at hcb

/-! ### Byte-size formatter model (`calculate_file_size`) -/

/-- Round-half-even of `100 * x` to an integer: the numerator (in hundredths)
of Python `round(x, 2)`. -/
def round2Num (x : ℚ) : Int :=
  let t := 100 * x
  let f := ⌊t⌋
  if t - f < 1 / 2 then f
  else if 1 / 2 < t - f then f + 1
  else if f % 2 = 0 then f else f + 1

/-- Python `round(x, 2)` as an exact rational. -/
def round2 (x : ℚ) : ℚ := (round2Num x : ℚ) / 100

/-- The unit names of `calculate_file_size`. -/
def units : List String := ["bytes", "KB", "MB", "GB", "TB", "PB"]

/-- The `while size >= 1024.0 and unit_index < len(units) - 1` loop of
`calculate_file_size`.  The loop runs at most `5 - unit_index` times because
each iteration increments `unit_index`, so a fuel of `5 - unit_index` is
exact; the guard is checked unchanged on every iteration. -/
def sizeLoopAux : Nat → ℚ → Nat → ℚ × Nat
  | 0, size, unit_index => (size, unit_index)
  | fuel + 1, size, unit_index =>
    if 1024 ≤ size ∧ unit_index < 5 then sizeLoopAux fuel (size / 1024) (unit_index + 1)
    else (size, unit_index)

/-- The division loop of `calculate_file_size`, started at an arbitrary index. -/
def sizeLoop (size : ℚ) (unit_index : Nat) : ℚ × Nat :=
  sizeLoopAux (5 - unit_index) size unit_index

/-- The binary exponent of the unit in the last place of a 53-bit significand
for a magnitude `a` (meaningful for `2^53 ≤ a`). -/
def floatUlpExp (a : Nat) : Nat := Nat.log 2 a - 52

/-- A magnitude `2^53 ≤ a` rounded to the nearest multiple of its ulp
`2^(floatUlpExp a)`, ties to the even multiple — the IEEE-754 double
rounding that `float(int)` performs. -/
def floatRoundNat (a : Nat) : Nat :=
  if 2 ^ floatUlpExp a < 2 * (a % 2 ^ floatUlpExp a)
      ∨ (2 * (a % 2 ^ floatUlpExp a) = 2 ^ floatUlpExp a
          ∧ (a / 2 ^ floatUlpExp a) % 2 = 1)
  then (a / 2 ^ floatUlpExp a + 1) * 2 ^ floatUlpExp a
  else (a / 2 ^ floatUlpExp a) * 2 ^ floatUlpExp a

/-- CPython's `float(n)` for an `int` argument: exact below `2^53`, otherwise
rounded to the nearest double (ties to even); when the rounded magnitude
reaches `2^1024` the conversion raises
`OverflowError: int too large to convert to float`.  The value of `float(n)`
is always an integer here, so it is returned as an `Int`. -/
def pyFloat (n : Int) : Except String Int :=
  if n.natAbs < 2 ^ 53 then .ok n
  else if 2 ^ 1024 ≤ floatRoundNat n.natAbs then
    .error "int too large to convert to float"
  else .ok (if n < 0 then -(floatRoundNat n.natAbs : Int) else (floatRoundNat n.natAbs : Int))

/-- Embedding of the tool `calculate_file_size` (`langchain_agent.py`,
lines 59-74): `size = float(size_bytes)` (which may raise `OverflowError`,
modelled as the error case), then the division loop, returning the rounded
value and the unit name (the code interpolates exactly these two into
`f"{round(size, 2)} {units[unit_index]}"`; Python's decimal rendering of the
rounded float is not modelled). -/
def calculate_file_size (size_bytes : Int) : Except String (ℚ × String) :=
  match pyFloat size_bytes with
  | .error e => .error e
  | .ok f =>
    let p := sizeLoop (f : ℚ) 0
    .ok (round2 p.1, units.getD p.2 "bytes")

/-- The unit index the loop ends at: the first index whose scaled value is
below 1024, capped at 5 (the index of `PB`). -/
def specIdx (n : Int) : Nat :=
  if n < 1024 then 0 else if n < 1024 ^ 2 then 1 else if n < 1024 ^ 3 then 2
  else if n < 1024 ^ 4 then 3 else if n < 1024 ^ 5 then 4 else 5

example : specIdx 123456789 = 2 := by norm_num [specIdx]

/- Just above `2^53` the conversion is no longer exact, and the rounded
 output changes with it: `float(9102900746822615)` is `9102900746822616`,
 whose PB value rounds to `8.09`, while the exact input would give `8.08`. -/
example : pyFloat 9102900746822615 = .ok 9102900746822616 := by
  have hUlpDef : ∀ a : Nat, floatUlpExp a = Nat.log 2 a - 52 := fun _ => rfl
  have hFRDef : ∀ a : Nat, floatRoundNat a =
      if 2 ^ floatUlpExp a < 2 * (a % 2 ^ floatUlpExp a)
          ∨ (2 * (a % 2 ^ floatUlpExp a) = 2 ^ floatUlpExp a
              ∧ (a / 2 ^ floatUlpExp a) % 2 = 1)
      then (a / 2 ^ floatUlpExp a + 1) * 2 ^ floatUlpExp a
      else (a / 2 ^ floatUlpExp a) * 2 ^ floatUlpExp a := fun _ => rfl
  have hPFDef : ∀ n : Int, pyFloat n =
      if n.natAbs < 2 ^ 53 then .ok n
      else if 2 ^ 1024 ≤ floatRoundNat n.natAbs then
        .error "int too large to convert to float"
      else .ok (if n < 0 then -(floatRoundNat n.natAbs : Int)
                else (floatRoundNat n.natAbs : Int)) := fun _ => rfl
  have hna : (9102900746822615 : Int).natAbs = 9102900746822615 := rfl
  have hlog : Nat.log 2 9102900746822615 = 53 := by
    apply Nat.log_eq_of_pow_le_of_lt_pow <;> norm_num
  have hulp : floatUlpExp 9102900746822615 = 1 := by
    rw [hUlpDef, hlog]
  have hfr : floatRoundNat 9102900746822615 = 9102900746822616 := by
    rw [hFRDef, hulp]
    rw [if_pos (Or.inr ⟨by decide, by decide⟩)]
    decide
  have hov : ¬((2 : Nat) ^ 1024 ≤ 9102900746822616) := by
    intro hle
    have h1 : (9102900746822616 : Nat) < 2 ^ 54 := by norm_num
    have h2 : (2 : Nat) ^ 54 ≤ 2 ^ 1024 := Nat.pow_le_pow_right (by norm_num) (by norm_num)
    omega
  rw [hPFDef, hna, hfr]
  rw [if_neg (by norm_num : ¬(9102900746822615 < 2 ^ 53))]
  rw [if_neg hov]
  rw [if_neg (by norm_num : ¬((9102900746822615 : Int) < 0))]
  rfl
example : round2Num ((9102900746822616 : ℚ) / 1024 ^ 5) = 809 := by
  have hf : ⌊(100 * ((9102900746822616 : ℚ) / 1024 ^ 5))⌋ = 808 := by
    rw [Int.floor_eq_iff]
    norm_num
  simp only [round2Num, hf]
  norm_num
example : round2Num ((9102900746822615 : ℚ) / 1024 ^ 5) = 808 := by
  have hf : ⌊(100 * ((9102900746822615 : ℚ) / 1024 ^ 5))⌋ = 808 := by
    rw [Int.floor_eq_iff]
    norm_num
  simp only [round2Num, hf]
  norm_num
example : round2Num (3 / 2 : ℚ) = 150 := by
  rw [round2Num]
  norm_num
example : round2Num (1261 / 1461 : ℚ) = 86 := by
  rw [round2Num]
  have hf : ⌊(100 * (1261 / 1461 : ℚ))⌋ = 86 := by
    rw [Int.floor_eq_iff]
    norm_num
  rw [hf]
  norm_num

/-! ### Date-difference model (`calculate_days_between`)

`datetime.strptime(s, "%Y-%m-%d")` is modelled after CPython's `_strptime`:
`%Y` matches exactly four digits, `%m` matches `1[0-2]|0[1-9]|[1-9]`,
`%d` matches `3[01]|[12]\d|0[1-9]|[1-9]` (alternatives tried in this order),
the hyphens are literal, trailing characters are reported as unconverted
data, and the matched fields are then validated by the `datetime`
constructor (year range first, then day-in-month). -/

/-- Numeric value of a decimal digit character. -/
def dval (c : Char) : Int := (c.toNat - '0'.toNat : Nat)

/-- The `%m` pattern `1[0-2]|0[1-9]`, two-digit alternatives only. -/
def matchTwoDigitMonth (c1 c2 : Char) : Option Int :=
  if c1 = '1' ∧ '0' ≤ c2 ∧ c2 ≤ '2' then some (10 + dval c2)
  else if c1 = '0' ∧ '1' ≤ c2 ∧ c2 ≤ '9' then some (dval c2)
  else none

/-- The `%m` pattern: two-digit alternatives first, then the single
digit `[1-9]`. -/
def matchMonth : List Char → Option (Int × List Char)
  | c1 :: c2 :: rest =>
    match matchTwoDigitMonth c1 c2 with
    | some v => some (v, rest)
    | none => if '1' ≤ c1 ∧ c1 ≤ '9' then some (dval c1, c2 :: rest) else none
  | [c1] => if '1' ≤ c1 ∧ c1 ≤ '9' then some (dval c1, []) else none
  | [] => none

/-- The `%d` pattern `3[01]|[12]\d|0[1-9]`, two-digit alternatives only. -/
def matchTwoDigitDay (c1 c2 : Char) : Option Int :=
  if c1 = '3' ∧ ('0' = c2 ∨ c2 = '1') then some (30 + dval c2)
  else if (c1 = '1' ∨ c1 = '2') ∧ '0' ≤ c2 ∧ c2 ≤ '9' then some (10 * dval c1 + dval c2)
  else if c1 = '0' ∧ '1' ≤ c2 ∧ c2 ≤ '9' then some (dval c2)
  else none

/-- The `%d` pattern: two-digit alternatives first, then the single
digit `[1-9]`. -/
def matchDay : List Char → Option (Int × List Char)
  | c1 :: c2 :: rest =>
    match matchTwoDigitDay c1 c2 with
    | some v => some (v, rest)
    | none => if '1' ≤ c1 ∧ c1 ≤ '9' then some (dval c1, c2 :: rest) else none
  | [c1] => if '1' ≤ c1 ∧ c1 ≤ '9' then some (dval c1, []) else none
  | [] => none

/-- Regex phase of `strptime(s, "%Y-%m-%d")`: four year digits, a hyphen,
the month pattern, a hyphen, the day pattern; returns the fields and the
unconsumed suffix. -/
def parseYMD (cs : List Char) : Option (Int × Int × Int × List Char) :=
  match cs with
  | c1 :: c2 :: c3 :: c4 :: '-' :: rest =>
    if c1.isDigit ∧ c2.isDigit ∧ c3.isDigit ∧ c4.isDigit then
      match matchMonth rest with
      | some (m, rest2) =>
        match rest2 with
        | '-' :: rest3 =>
          match matchDay rest3 with
          | some (d, rest4) =>
            some (1000 * dval c1 + 100 * dval c2 + 10 * dval c3 + dval c4, m, d, rest4)
          | none => none
        | _ => none
      | none => none
    else none
  | _ => none

/-- `datetime.strptime(s, "%Y-%m-%d")`, including the `ValueError` messages of
the regex mismatch, of unconverted trailing data, and of the `datetime`
constructor's own validation. -/
def parseDate (s : String) : Except String (Int × Int × Int) :=
  match parseYMD s.data with
  | none => .error ("time data '" ++ s ++ "' does not match format '%Y-%m-%d'")
  | some (y, m, d, rem) =>
    if rem.isEmpty then
      if y < 1 then .error ("year " ++ toString y ++ " is out of range")
      else if d ≤ daysInMonth y m then .ok (y, m, d)
      else .error "day is out of range for month"
    else .error ("unconverted data remains: " ++ String.mk rem)

/-- Python's rendering of the float `round(x, 2)` whose value is the
hundredths integer `n`: trailing zeros are dropped but at least one decimal
digit is always printed. -/
def fmtCenti (n : Int) : String :=
  let a := n.natAbs
  let ip := a / 100
  let fr := a % 100
  (if n < 0 then "-" else "") ++ toString ip ++
  (if fr = 0 then ".0"
   else if fr % 10 = 0 then "." ++ toString (fr / 10)
   else if fr < 10 then ".0" ++ toString fr
   else "." ++ toString fr)

/-- `f"{round(x, 2)}"` for the exact rational `x`. -/
def pyRound2Str (x : ℚ) : String := fmtCenti (round2Num x)

/-- The result string of `calculate_days_between` for a signed day
difference. -/
def daysMessage (days : Int) : String :=
  toString days ++ " days (approximately " ++ pyRound2Str ((days : ℚ) / 7)
    ++ " weeks or " ++ pyRound2Str ((days : ℚ) / (1461 / 4)) ++ " years)"

/-- Embedding of the tool `calculate_days_between` (`langchain_agent.py`,
lines 94-110): parse both dates with `strptime`, subtract the two midnight
datetimes (whose `.days` is the ordinal difference), and format; a
`ValueError` from either parse is converted into the
`"Invalid date format. ..."` string result. -/
def calculate_days_between (start_date end_date : String) : String :=
  match parseDate start_date with
  | .error e => "Invalid date format. Use YYYY-MM-DD. Error: " ++ e
  | .ok (y1, m1, d1) =>
    match parseDate end_date with
    | .error e => "Invalid date format. Use YYYY-MM-DD. Error: " ++ e
    | .ok (y2, m2, d2) => daysMessage (toordinal y2 m2 d2 - toordinal y1 m1 d1)

example : parseDate "2020-01-01" = .ok (2020, 1, 1) := by decide
example : parseDate "2025-12-31" = .ok (2025, 12, 31) := by decide
example : parseDate "2021-02-30" = .error "day is out of range for month" := by decide
example : parseDate "2021-2-3" = .ok (2021, 2, 3) := by decide
example : parseDate "20-01-01" =
    .error "time data '20-01-01' does not match format '%Y-%m-%d'" := by decide
example : parseDate "2021-01-012" = .error "unconverted data remains: 2" := by decide
example : toordinal 2025 12 31 - toordinal 2020 1 1 = 2191 := by decide

/-! ### Agent model (`invoke_agent`)

The remote model client (`llm_with_tools.invoke`) and the registered tools
are external effects; they are parameters of the embedding.  Tool arguments
have an abstract type `α`; a tool returns its already-stringified result
(the code applies `str(...)` before building the `ToolMessage`) or fails.
Any Python exception (model transport failure, tool validation error) is an
`Except.error`, and the one `try/except` wrapping the body of `invoke_agent`
is the final conversion of an `error` into an `"Error: ..."` payload. -/

/-- A tool-call request emitted by the model: `tool_call["name"]`,
`tool_call["args"]`, and `tool_call.get("id", "")` (the key may be absent). -/
structure ToolCallReq (α : Type) where
  name : String
  args : α
  id : Option String

/-- A model reply: its text content and its (possibly empty) list of
tool-call requests. -/
structure AIMsg (α : Type) where
  content : String
  tool_calls : List (ToolCallReq α)

/-- A conversation message: system, human, assistant (with requested tool
calls), or tool result carrying a correlation id. -/
inductive Msg (α : Type) where
  | system (content : String)
  | human (content : String)
  | ai (m : AIMsg α)
  | tool (content : String) (tool_call_id : String)

/-- A registered tool: its name and its (fallible) invocation, returning the
stringified result. -/
structure Tool (α : Type) where
  name : String
  invoke : α → Except String String

/-- The bound model client: maps a message history to a reply or raises. -/
def Oracle (α : Type) := List (Msg α) → Except String (AIMsg α)

/-- The `for tool_func in tools: if tool_func.name == tool_name: ... break`
linear search of `invoke_agent`. -/
def findTool {α : Type} (tools : List (Tool α)) (tool_name : String) : Option (Tool α) :=
  match tools with
  | [] => none
  | t :: rest => if t.name = tool_name then some t else findTool rest tool_name

/-- One iteration of the tool-execution loop: look up the requested name,
invoke the tool (its exception propagates), substitute the synthesized
`"Tool <name> not found"` string when the lookup fails, and build the
`ToolMessage` with the request's correlation id (defaulted to `""`). -/
def execOne {α : Type} (tools : List (Tool α)) (tc : ToolCallReq α) : Except String (Msg α) :=
  match findTool tools tc.name with
  | some t =>
    match t.invoke tc.args with
    | .ok r => .ok (.tool r (tc.id.getD ""))
    | .error e => .error e
  | none => .ok (.tool ("Tool " ++ tc.name ++ " not found") (tc.id.getD ""))

/-- The `for i, tool_call in enumerate(response.tool_calls)` loop: execute
each request in emission order and collect the tool-result messages. -/
def execToolCalls {α : Type} (tools : List (Tool α)) :
    List (ToolCallReq α) → Except String (List (Msg α))
  | [] => .ok []
  | tc :: rest =>
    match execOne tools tc with
    | .error e => .error e
    | .ok m =>
      match execToolCalls tools rest with
      | .error e => .error e
      | .ok ms => .ok (m :: ms)

/-- The system prompt of `invoke_agent`. -/
def systemPrompt : String :=
  "You are a helpful assistant with access to tools. \nYou MUST use the available tools when asked about:\n- Current time/timestamp: use get_current_timestamp\n- Random numbers: use generate_random_number\n- UUIDs: use generate_uuid\n- Hashing: use hash_string\n- File size conversions: use calculate_file_size\n- Day of week: use get_day_of_week\n- Date calculations: use calculate_days_between\n\nAlways provide the tool result in your response."

/-- The initial message list: the system message and the user prompt. -/
def initMessages (α : Type) (user_input : String) : List (Msg α) :=
  [Msg.system systemPrompt, Msg.human user_input]

/-- The request payload: its optional `prompt` field. -/
structure InPayload where
  prompt : Option String

/-- The response payload: its `result` field. -/
structure OutPayload where
  result : String

/-- The body of `invoke_agent` inside the `try`, paired with the number of
model invocations performed.  `payload.get("prompt", "Hello!")`, first model
call, the tool round if the reply requests tools, and the second model call
whose text is the result. -/
def agentCore {α : Type} (llm : Oracle α) (tools : List (Tool α)) (payload : InPayload) :
    Except String String × Nat :=
  let user_input := payload.prompt.getD "Hello!"
  let messages := initMessages α user_input
  match llm messages with
  | .error e => (.error e, 1)
  | .ok response =>
    if response.tool_calls.isEmpty then (.ok response.content, 1)
    else
      match execToolCalls tools response.tool_calls with
      | .error e => (.error e, 1)
      | .ok toolMsgs =>
        match llm (messages ++ [Msg.ai response] ++ toolMsgs) with
        | .error e => (.error e, 2)
        | .ok finalResponse => (.ok finalResponse.content, 2)

/-- Embedding of the entry point `invoke_agent` (`langchain_agent.py`,
lines 131-209): run the body and convert any exception into the
`{"result": "Error: <message>"}` payload. -/
def invoke_agent {α : Type} (llm : Oracle α) (tools : List (Tool α)) (payload : InPayload) :
    OutPayload :=
  match (agentCore llm tools payload).1 with
  | .ok s => ⟨s⟩
  | .error e => ⟨"Error: " ++ e⟩

/-! ### Claim theorems -/

/-- C4: for every text, `hash_string` returns the lowercase hex digest of the
requested algorithm applied to the UTF-8 encoding of the text, `sha256` being
the default; hashing is deterministic; any algorithm outside the supported
set yields the unsupported-algorithm string rather than an exception. -/
theorem hash_string_digest_spec (H : HashLib) (text : String) :
    hash_string H text "md5" = hexOfBytes (H.md5 (utf8Bytes text)) ∧
    hash_string H text "sha1" = hexOfBytes (H.sha1 (utf8Bytes text)) ∧
    hash_string H text "sha256" = hexOfBytes (H.sha256 (utf8Bytes text)) ∧
    hash_string H text "sha512" = hexOfBytes (H.sha512 (utf8Bytes text)) ∧
    hash_string_default H text = hash_string H text "sha256" ∧
    (∀ bs, ∀ c ∈ (hexOfBytes bs).data, c ∈ hexDigits) ∧
    (∀ algorithm, hash_string H text algorithm = hash_string H text algorithm) ∧
    (∀ algorithm, algorithm ∉ (["md5", "sha1", "sha256", "sha512"] : List String) →
      hash_string H text algorithm =
        "Unsupported algorithm: " ++ algorithm ++ ". Use md5, sha1, sha256, or sha512.") := by
  refine ⟨?_, ?_, ?_, ?_, rfl, hexOfBytes_chars, fun _ => rfl, ?_⟩
  · unfold hash_string
    rw [if_pos rfl]
  · unfold hash_string
    rw [if_neg (by decide), if_pos rfl]
  · unfold hash_string
    rw [if_neg (by decide), if_neg (by decide), if_pos rfl]
  · unfold hash_string
    rw [if_neg (by decide), if_neg (by decide), if_neg (by decide), if_pos rfl]
  · intro algorithm h
    simp only [List.mem_cons, List.not_mem_nil, or_false, not_or] at h
    obtain ⟨h1, h2, h3, h4⟩ := h
    unfold hash_string
    rw [if_neg h1, if_neg h2, if_neg h3, if_neg h4]

/-- A concrete `hashlib` instantiation used only by witnesses. -/
def hashLib0 : HashLib :=
  ⟨fun _ => [171, 5], fun _ => [1], fun _ => [2], fun _ => [3]⟩

theorem hash_string_digest_spec_witness :
    hash_string hashLib0 "abc" "md5" = hexOfBytes (hashLib0.md5 (utf8Bytes "abc")) ∧
    hash_string_default hashLib0 "abc" = hash_string hashLib0 "abc" "sha256" ∧
    hash_string hashLib0 "abc" "sha-999" =
      "Unsupported algorithm: " ++ "sha-999" ++ ". Use md5, sha1, sha256, or sha512." :=
  ⟨(hash_string_digest_spec hashLib0 "abc").1,
   (hash_string_digest_spec hashLib0 "abc").2.2.2.2.1,
   (hash_string_digest_spec hashLib0 "abc").2.2.2.2.2.2.2 "sha-999" (by decide)⟩

/-- C10: the algorithm name is matched case-sensitively and exactly; any
string other than the four literal names gets the unsupported-algorithm
message, never a digest. -/
theorem hash_string_case_sensitive (H : HashLib) (text algorithm : String)
    (h1 : algorithm ≠ "md5") (h2 : algorithm ≠ "sha1")
    (h3 : algorithm ≠ "sha256") (h4 : algorithm ≠ "sha512") :
    hash_string H text algorithm =
      "Unsupported algorithm: " ++ algorithm ++ ". Use md5, sha1, sha256, or sha512." := by
  unfold hash_string
  rw [if_neg h1, if_neg h2, if_neg h3, if_neg h4]

theorem hash_string_case_sensitive_witness :
    hash_string hashLib0 "hello" "SHA256" =
      "Unsupported algorithm: " ++ "SHA256" ++ ". Use md5, sha1, sha256, or sha512." :=
  hash_string_case_sensitive hashLib0 "hello" "SHA256"
    (by decide) (by decide) (by decide) (by decide)

/-- C5 (amended): `get_day_of_week` never raises; for every triple that is a
real proleptic Gregorian date with year in the implementation-supported range
1..9999 it returns the Zeller weekday name paired with the zero-padded date,
and for every other triple it returns the `"Invalid date: ..."` error
string. -/
theorem get_day_of_week_amended (year month day : Int) :
    (pyDateValid year month day →
      get_day_of_week year month day =
        toString year ++ "-" ++ pad2 month ++ "-" ++ pad2 day ++ " was/is a "
          ++ gregDayName year month day) ∧
    (¬ pyDateValid year month day →
      get_day_of_week year month day = "Invalid date: " ++ dateErrorMsg year month day) ∧
    (gregDateValid year month day → 1 ≤ year → year ≤ 9999 →
      pyDateValid year month day) := by
  refine ⟨?_, ?_, ?_⟩
  · intro h
    unfold get_day_of_week
    rw [if_pos h]
    rw [weekday_name_eq year month day h.1 h.2.2.1 h.2.2.2.1]
  · intro h
    unfold get_day_of_week
    rw [if_neg h]
  · intro hg h1 h2
    exact ⟨h1, h2, hg.1, hg.2.1, hg.2.2.1, hg.2.2.2⟩

theorem get_day_of_week_amended_witness :
    pyDateValid 2021 2 3 ∧
    get_day_of_week 2021 2 3 =
      toString (2021 : Int) ++ "-" ++ pad2 2 ++ "-" ++ pad2 3 ++ " was/is a "
        ++ gregDayName 2021 2 3 ∧
    ¬ pyDateValid 2021 2 30 ∧
    get_day_of_week 2021 2 30 = "Invalid date: " ++ dateErrorMsg 2021 2 30 :=
  ⟨by decide, (get_day_of_week_amended 2021 2 3).1 (by decide),
   by decide, (get_day_of_week_amended 2021 2 30).2.1 (by decide)⟩

/-- C5 counterexample: `10000-01-01` is a real proleptic Gregorian date (a
Saturday by Zeller's congruence), yet `get_day_of_week` returns the
out-of-range error string rather than its weekday name, because the
implementation's date type stops at year 9999. -/
theorem get_day_of_week_counterexample :
    gregDateValid 10000 1 1 ∧
    get_day_of_week 10000 1 1 = "Invalid date: year 10000 is out of range" ∧
    gregDayName 10000 1 1 = "Saturday" ∧
    get_day_of_week 10000 1 1 ≠ "10000-01-01 was/is a " ++ gregDayName 10000 1 1 := by
  refine ⟨by decide, by decide, by decide, by decide⟩

/-- C7: on `"2020-01-01"` and `"2025-12-31"` the tool reports 2191 days with
313.0 weeks and 6.0 years (2191/7 and 2191/365.25 rounded to two decimals);
in general the reported day count of two parsed dates is the signed ordinal
difference end minus start, and a parse failure of either argument yields the
`"Invalid date format. ..."` error string rather than an exception. -/
theorem calculate_days_between_spec :
    calculate_days_between "2020-01-01" "2025-12-31" =
      "2191 days (approximately 313.0 weeks or 6.0 years)" ∧
    (∀ s1 s2 y1 m1 d1 y2 m2 d2, parseDate s1 = .ok (y1, m1, d1) →
      parseDate s2 = .ok (y2, m2, d2) →
      calculate_days_between s1 s2 = daysMessage (toordinal y2 m2 d2 - toordinal y1 m1 d1)) ∧
    (∀ s1 s2 e, parseDate s1 = .error e →
      calculate_days_between s1 s2 = "Invalid date format. Use YYYY-MM-DD. Error: " ++ e) ∧
    (∀ s1 s2 v e, parseDate s1 = .ok v → parseDate s2 = .error e →
      calculate_days_between s1 s2 = "Invalid date format. Use YYYY-MM-DD. Error: " ++ e) := by
  have hgen : ∀ s1 s2 y1 m1 d1 y2 m2 d2, parseDate s1 = .ok (y1, m1, d1) →
      parseDate s2 = .ok (y2, m2, d2) →
      calculate_days_between s1 s2 = daysMessage (toordinal y2 m2 d2 - toordinal y1 m1 d1) := by
    intro s1 s2 y1 m1 d1 y2 m2 d2 h1 h2
    unfold calculate_days_between
    rw [h1, h2]
  refine ⟨?_, hgen, ?_, ?_⟩
  · rw [hgen "2020-01-01" "2025-12-31" 2020 1 1 2025 12 31 (by decide) (by decide)]
    rw [show toordinal 2025 12 31 - toordinal 2020 1 1 = 2191 by decide]
    have hw : round2Num (((2191 : Int) : ℚ) / 7) = 31300 := by
      simp only [round2Num]
      norm_num
    have hy : round2Num (((2191 : Int) : ℚ) / (1461 / 4)) = 600 := by
      have hf : ⌊(100 * (((2191 : Int) : ℚ) / (1461 / 4)))⌋ = 599 := by
        rw [Int.floor_eq_iff]
        norm_num
      simp only [round2Num, hf]
      norm_num
    unfold daysMessage pyRound2Str
    rw [hw, hy]
    decide
  · intro s1 s2 e h1
    unfold calculate_days_between
    rw [h1]
  · intro s1 s2 v e h1 h2
    obtain ⟨y1, m1, d1⟩ := v
    unfold calculate_days_between
    rw [h1, h2]

theorem calculate_days_between_spec_witness :
    calculate_days_between "2020-01-01" "2025-12-31" =
      daysMessage (toordinal 2025 12 31 - toordinal 2020 1 1) ∧
    calculate_days_between "2020-13-01" "2025-12-31" =
      "Invalid date format. Use YYYY-MM-DD. Error: "
        ++ "time data '2020-13-01' does not match format '%Y-%m-%d'" :=
  ⟨(calculate_days_between_spec).2.1 "2020-01-01" "2025-12-31" 2020 1 1 2025 12 31
      (by decide) (by decide),
   (calculate_days_between_spec).2.2.1 "2020-13-01" "2025-12-31"
      "time data '2020-13-01' does not match format '%Y-%m-%d'" (by decide)⟩

lemma sizeLoop_step {s : ℚ} {i : Nat} (h1 : 1024 ≤ s) (h2 : i < 5) :
    sizeLoop s i = sizeLoop (s / 1024) (i + 1) := by
  unfold sizeLoop
  have hk : 5 - i = (5 - (i + 1)) + 1 := by omega
  rw [hk]
  simp only [sizeLoopAux]
  rw [if_pos ⟨h1, h2⟩]

lemma sizeLoop_stop {s : ℚ} {i : Nat} (h : ¬(1024 ≤ s ∧ i < 5)) :
    sizeLoop s i = (s, i) := by
  unfold sizeLoop
  cases hk : 5 - i with
  | zero => simp only [sizeLoopAux]
  | succ k =>
    simp only [sizeLoopAux]
    rw [if_neg h]

lemma specIdx_le_five (n : Int) : specIdx n ≤ 5 := by
  unfold specIdx
  split_ifs <;> norm_num

lemma specIdx_lower (n : Int) (u : Nat) (hu : u < specIdx n) : 1024 ^ (u + 1) ≤ n := by
  unfold specIdx at hu
  split_ifs at hu with h1 h2 h3 h4 h5 <;>
    (interval_cases u <;> norm_num at * <;> omega)

lemma specIdx_upper (n : Int) (h : specIdx n < 5) : n < 1024 ^ (specIdx n + 1) := by
  unfold specIdx at h ⊢
  split_ifs at h ⊢ with h1 h2 h3 h4 h5 <;> norm_num at * <;> omega

/-- If the loop has not yet reached its final unit index, the current scaled
value is still at least 1024. -/
lemma scaled_ge (n : Int) (u : Nat) (hu : u < specIdx n) :
    (1024 : ℚ) ≤ (n : ℚ) / 1024 ^ u := by
  rw [le_div_iff (by positivity)]
  have h := specIdx_lower n u hu
  calc (1024 : ℚ) * 1024 ^ u = ((1024 ^ (u + 1) : Int) : ℚ) := by push_cast [pow_succ]; ring
    _ ≤ (n : ℚ) := by exact_mod_cast h

/-- The loop of `calculate_file_size`, started at scaled value `n / 1024^i`,
ends at scaled value `n / 1024^(specIdx n)` and unit index `specIdx n`. -/
lemma sizeLoop_invariant (n : Int) : ∀ k i, k = specIdx n - i → i ≤ specIdx n →
    sizeLoop ((n : ℚ) / 1024 ^ i) i = ((n : ℚ) / 1024 ^ specIdx n, specIdx n) := by
  intro k
  induction k with
  | zero =>
    intro i hk hi
    have hieq : i = specIdx n := by omega
    subst hieq
    apply sizeLoop_stop
    rintro ⟨hc, hlt⟩
    have hup := specIdx_upper n hlt
    rw [le_div_iff (by positivity)] at hc
    have hcast : ((1024 ^ (specIdx n + 1) : Int) : ℚ) ≤ (n : ℚ) := by
      push_cast [pow_succ]
      linarith
    have h2 : (1024 : Int) ^ (specIdx n + 1) ≤ n := by exact_mod_cast hcast
    exact absurd h2 (not_le.mpr hup)
  | succ k ih =>
    intro i hk hi
    have hlt : i < specIdx n := by omega
    have hi5 : i < 5 := lt_of_lt_of_le hlt (specIdx_le_five n)
    rw [sizeLoop_step (scaled_ge n i hlt) hi5]
    have hdiv : (n : ℚ) / 1024 ^ i / 1024 = (n : ℚ) / 1024 ^ (i + 1) := by
      rw [div_div, pow_succ]
    rw [hdiv]
    exact ih (i + 1) (by omega) (by omega)

lemma sizeLoop_eq (n : Int) :
    sizeLoop (n : ℚ) 0 = ((n : ℚ) / 1024 ^ specIdx n, specIdx n) := by
  have h := sizeLoop_invariant n (specIdx n) 0 (by omega) (by omega)
  simpa using h

/-- The rounding step changes the value in hundredths by at most one half. -/
lemma round2Num_abs (x : ℚ) : |((round2Num x : Int) : ℚ) - 100 * x| ≤ 1 / 2 := by
  have h0 : ((⌊100 * x⌋ : Int) : ℚ) ≤ 100 * x := Int.floor_le _
  have h1 : (100 : ℚ) * x < ⌊100 * x⌋ + 1 := Int.lt_floor_add_one _
  simp only [round2Num]
  split_ifs with ha hb hc <;> rw [abs_le] <;> constructor <;> push_cast <;> linarith

/-- `round(x, 2)` differs from `x` by at most `1/200`. -/
lemma round2_abs (x : ℚ) : |round2 x - x| ≤ 1 / 200 := by
  unfold round2
  have h := round2Num_abs x
  rw [abs_le] at h ⊢
  obtain ⟨hl, hr⟩ := h
  constructor <;> linarith

/-- The double rounding of a magnitude `2^53 ≤ a` keeps at least `2^53`,
moves the value by at most half an ulp `2^(floatUlpExp a - 1)`, and that half
ulp is at most `a / 2^53`. -/
lemma floatRoundNat_spec (a : Nat) (h : 2 ^ 53 ≤ a) :
    2 ^ 53 ≤ floatRoundNat a ∧
    floatRoundNat a ≤ a + 2 ^ (floatUlpExp a - 1) ∧
    a ≤ floatRoundNat a + 2 ^ (floatUlpExp a - 1) ∧
    2 ^ (floatUlpExp a - 1) * 2 ^ 53 ≤ a := by
  have ha0 : a ≠ 0 := by
    intro h0
    rw [h0] at h
    exact absurd h (by norm_num)
  have hLlow : 2 ^ Nat.log 2 a ≤ a := Nat.pow_log_le_self 2 ha0
  have hL53 : 53 ≤ Nat.log 2 a := (Nat.pow_le_iff_le_log (by norm_num) ha0).mp h
  have hsE : 52 + floatUlpExp a = Nat.log 2 a := by
    unfold floatUlpExp
    omega
  have hs1 : 1 ≤ floatUlpExp a := by
    unfold floatUlpExp
    omega
  have hhalf : 2 ^ (floatUlpExp a - 1) * 2 = 2 ^ floatUlpExp a := by
    rw [← pow_succ]
    congr 1
    omega
  have hsplit : 2 ^ floatUlpExp a * (a / 2 ^ floatUlpExp a) + a % 2 ^ floatUlpExp a = a :=
    Nat.div_add_mod a _
  have hrlt : a % 2 ^ floatUlpExp a < 2 ^ floatUlpExp a := Nat.mod_lt _ (by positivity)
  have hq52 : 2 ^ 52 ≤ a / 2 ^ floatUlpExp a := by
    rw [Nat.le_div_iff_mul_le (by positivity)]
    calc 2 ^ 52 * 2 ^ floatUlpExp a = 2 ^ (52 + floatUlpExp a) := (pow_add 2 52 _).symm
      _ = 2 ^ Nat.log 2 a := by rw [hsE]
      _ ≤ a := hLlow
  have hthird : 2 ^ (floatUlpExp a - 1) * 2 ^ 53 ≤ a := by
    calc 2 ^ (floatUlpExp a - 1) * 2 ^ 53 = 2 ^ (floatUlpExp a - 1 + 53) := (pow_add 2 _ 53).symm
      _ = 2 ^ Nat.log 2 a := by congr 1; omega
      _ ≤ a := hLlow
  have hbase : 2 ^ 53 ≤ a / 2 ^ floatUlpExp a * 2 ^ floatUlpExp a := by
    calc (2 : Nat) ^ 53 = 2 ^ 52 * 2 ^ 1 := by norm_num
      _ ≤ 2 ^ 52 * 2 ^ floatUlpExp a :=
          Nat.mul_le_mul_left _ (Nat.pow_le_pow_right (by norm_num) hs1)
      _ ≤ a / 2 ^ floatUlpExp a * 2 ^ floatUlpExp a := Nat.mul_le_mul_right _ hq52
  unfold floatRoundNat
  split_ifs with hcond
  · have h2r : 2 ^ floatUlpExp a ≤ 2 * (a % 2 ^ floatUlpExp a) := by
      rcases hcond with hlt | ⟨heq, -⟩
      · exact le_of_lt hlt
      · exact le_of_eq heq.symm
    have hup : (a / 2 ^ floatUlpExp a + 1) * 2 ^ floatUlpExp a
        = 2 ^ floatUlpExp a * (a / 2 ^ floatUlpExp a) + 2 ^ floatUlpExp a := by ring
    refine ⟨le_trans hbase (Nat.mul_le_mul_right _ (Nat.le_succ _)), ?_, ?_, hthird⟩
    · rw [hup]
      have key : ∀ (bb rr ee pp aa : Nat), bb + rr = aa → rr < pp → pp ≤ 2 * rr →
          ee * 2 = pp → bb + pp ≤ aa + ee := by
        intro bb rr ee pp aa e1 e2 e3 e4
        omega
      exact key _ _ _ _ _ hsplit hrlt h2r hhalf
    · rw [hup]
      have key : ∀ (bb rr ee pp aa : Nat), bb + rr = aa → rr < pp → ee * 2 = pp →
          aa ≤ bb + pp + ee := by
        intro bb rr ee pp aa e1 e2 e3
        omega
      exact key _ _ _ _ _ hsplit hrlt hhalf
  · have h2r : 2 * (a % 2 ^ floatUlpExp a) ≤ 2 ^ floatUlpExp a :=
      not_lt.mp (mt Or.inl hcond)
    have hdown : (a / 2 ^ floatUlpExp a) * 2 ^ floatUlpExp a
        = 2 ^ floatUlpExp a * (a / 2 ^ floatUlpExp a) := mul_comm _ _
    refine ⟨hbase, ?_, ?_, hthird⟩
    · rw [hdown]
      have key : ∀ (bb rr aa ee : Nat), bb + rr = aa → bb ≤ aa + ee := by
        intro bb rr aa ee e1
        omega
      exact key _ _ _ _ hsplit
    · rw [hdown]
      have key : ∀ (bb rr ee pp aa : Nat), bb + rr = aa → 2 * rr ≤ pp → ee * 2 = pp →
          aa ≤ bb + ee := by
        intro bb rr ee pp aa e1 e2 e3
        omega
      exact key _ _ _ _ _ hsplit h2r hhalf

/-- Below `2^53` the conversion is exact. -/
lemma pyFloat_small {n : Int} (h : n.natAbs < 2 ^ 53) : pyFloat n = .ok n := by
  unfold pyFloat
  rw [if_pos h]

/-- Case analysis of a successful `float(n)`: either the magnitude is below
`2^53` and the value is exact, or the value is the sign-preserving rounding
of the magnitude, within half an ulp of it. -/
lemma pyFloat_ok_cases (n f : Int) (h : pyFloat n = .ok f) :
    (n.natAbs < 2 ^ 53 ∧ f = n) ∨
    (2 ^ 53 ≤ n.natAbs ∧ 2 ^ 53 ≤ f.natAbs ∧
      (0 ≤ n → 0 ≤ f) ∧ (n < 0 → f ≤ 0) ∧
      n.natAbs ≤ f.natAbs + 2 ^ (floatUlpExp n.natAbs - 1) ∧
      f.natAbs ≤ n.natAbs + 2 ^ (floatUlpExp n.natAbs - 1) ∧
      2 ^ (floatUlpExp n.natAbs - 1) * 2 ^ 53 ≤ n.natAbs) := by
  unfold pyFloat at h
  by_cases h1 : n.natAbs < 2 ^ 53
  · rw [if_pos h1] at h
    injection h with h'
    exact Or.inl ⟨h1, h'.symm⟩
  · rw [if_neg h1] at h
    by_cases h2 : 2 ^ 1024 ≤ floatRoundNat n.natAbs
    · rw [if_pos h2] at h
      exact Except.noConfusion h
    · rw [if_neg h2] at h
      injection h with h'
      have hbig : 2 ^ 53 ≤ n.natAbs := not_lt.mp h1
      obtain ⟨hlo, hub, hlb, hth⟩ := floatRoundNat_spec n.natAbs hbig
      by_cases h3 : n < 0
      · rw [if_pos h3] at h'
        have hfv : f.natAbs = floatRoundNat n.natAbs := by
          rw [← h']
          simp [Int.natAbs_neg]
        refine Or.inr ⟨hbig, ?_, ?_, ?_, ?_, ?_, hth⟩
        · rw [hfv]; exact hlo
        · intro h0; exact absurd h0 (not_le.mpr h3)
        · intro _
          rw [← h']
          exact neg_nonpos.mpr (Int.natCast_nonneg _)
        · rw [hfv]; exact hlb
        · rw [hfv]; exact hub
      · rw [if_neg h3] at h'
        have hfv : f.natAbs = floatRoundNat n.natAbs := by
          rw [← h']
          simp
        refine Or.inr ⟨hbig, ?_, ?_, ?_, ?_, ?_, hth⟩
        · rw [hfv]; exact hlo
        · intro _
          rw [← h']
          exact Int.natCast_nonneg _
        · intro h0; exact absurd h0 h3
        · rw [hfv]; exact hlb
        · rw [hfv]; exact hub

/-- A successful `float(n)` is within a relative `2^-53` of `n`. -/
lemma pyFloat_close (n f : Int) (h : pyFloat n = .ok f) :
    |(f : ℚ) - (n : ℚ)| ≤ |(n : ℚ)| / 2 ^ 53 := by
  rcases pyFloat_ok_cases n f h with ⟨-, rfl⟩ | ⟨hbig, hf53, hpos, hneg, hb1, hb2, hth⟩
  · simp only [sub_self, abs_zero]
    positivity
  · have hEd : (f - n).natAbs ≤ 2 ^ (floatUlpExp n.natAbs - 1) := by
      rcases lt_or_ge n 0 with hn | hn
      · have hf := hneg hn
        omega
      · have hf := hpos hn
        omega
    have hdiff : (f - n).natAbs * 2 ^ 53 ≤ n.natAbs :=
      le_trans (Nat.mul_le_mul_right _ hEd) hth
    have e1 : |(f : ℚ) - (n : ℚ)| = ((f - n).natAbs : ℚ) := by
      have hc : (f : ℚ) - n = ((f - n : Int) : ℚ) := by push_cast; ring
      rw [hc, Nat.cast_natAbs, Int.cast_abs]
    have e2 : |(n : ℚ)| = (n.natAbs : ℚ) := by
      rw [Nat.cast_natAbs, Int.cast_abs]
    rw [e1, e2, le_div_iff (by positivity)]
    exact_mod_cast hdiff

lemma specIdx_of_ge (m : Int) (h : 1024 ^ 5 ≤ m) : specIdx m = 5 := by
  unfold specIdx
  split_ifs with h1 h2 h3 h4 h5 <;> norm_num at * <;> omega

lemma specIdx_of_lt (m : Int) (h : m < 1024) : specIdx m = 0 := by
  unfold specIdx
  rw [if_pos h]

/-- The float conversion never changes the unit the loop selects: every unit
threshold lies below `2^50`, where the conversion is exact, and past `2^53`
both the input and its rounding are beyond the last threshold. -/
lemma specIdx_pyFloat (n f : Int) (h : pyFloat n = .ok f) : specIdx f = specIdx n := by
  rcases pyFloat_ok_cases n f h with ⟨-, rfl⟩ | ⟨hbig, hf53, hpos, hneg, -, -, -⟩
  · rfl
  · rcases lt_or_ge n 0 with hn | hn
    · have hf := hneg hn
      rw [specIdx_of_lt n (by omega), specIdx_of_lt f (by omega)]
    · have hf := hpos hn
      have hn5 : 1024 ^ 5 ≤ n := by
        have h53 := hbig
        norm_num at h53 ⊢
        omega
      have hf5 : 1024 ^ 5 ≤ f := by
        have h53 := hf53
        norm_num at h53 ⊢
        omega
      rw [specIdx_of_ge n hn5, specIdx_of_ge f hf5]

/-- Rounding an exact power of two is the identity (no fractional ulp). -/
lemma floatRoundNat_two_pow {k : Nat} (hk : 52 ≤ k) : floatRoundNat (2 ^ k) = 2 ^ k := by
  have hlog : Nat.log 2 (2 ^ k) = k := Nat.log_pow (by norm_num) k
  have hs : floatUlpExp (2 ^ k) = k - 52 := by
    unfold floatUlpExp
    rw [hlog]
  have hsplitk : (2 : Nat) ^ k = 2 ^ 52 * 2 ^ (k - 52) := by
    rw [← pow_add]
    congr 1
    omega
  have hmod : 2 ^ k % 2 ^ (k - 52) = 0 := by
    rw [hsplitk]
    exact Nat.mul_mod_left _ _
  have hdiv : 2 ^ k / 2 ^ (k - 52) = 2 ^ 52 := by
    rw [Nat.pow_div (by omega) (by norm_num)]
    congr 1
    omega
  unfold floatRoundNat
  rw [hs, hmod, hdiv]
  rw [if_neg (by
    rintro (hlt | ⟨heq, -⟩)
    · have := pow_pos (by norm_num : 0 < 2) (k - 52)
      omega
    · have := pow_pos (by norm_num : 0 < 2) (k - 52)
      omega)]
  rw [← pow_add]
  congr 1
  omega

/-- `float(2^1200)` overflows: the embedding's error path is reachable. -/
lemma pyFloat_two_pow_overflow :
    pyFloat ((2 : Int) ^ 1200) = .error "int too large to convert to float" := by
  have hA : ((2 : Int) ^ 1200).natAbs = 2 ^ 1200 := by
    rw [Int.natAbs_pow]
    norm_num
  unfold pyFloat
  rw [hA]
  rw [if_neg (not_lt.mpr (Nat.pow_le_pow_right (by norm_num) (by norm_num)))]
  rw [floatRoundNat_two_pow (by norm_num : 52 ≤ 1200)]
  rw [if_pos (Nat.pow_le_pow_right (by norm_num) (by norm_num))]

/-- C6 (amended): whenever the input's conversion to a double succeeds, the
tool returns the converted value scaled into the unit of index `specIdx n` —
the smallest for which the input scaled by `1024^u` drops below 1024, capped
at `PB` — rounded to two decimals; the conversion is within a relative
`2^-53` of the input, so reconstructing bytes from `value * 1024^unit_index`
approximates the input within `1024^unit_index / 200 + |n| / 2^53`; when the
conversion overflows, the tool raises that error instead. -/
theorem calculate_file_size_amended (n : Int) :
    (∀ f, pyFloat n = .ok f →
      calculate_file_size n
        = .ok (round2 ((f : ℚ) / 1024 ^ specIdx n), units.getD (specIdx n) "bytes") ∧
      |(f : ℚ) - (n : ℚ)| ≤ |(n : ℚ)| / 2 ^ 53 ∧
      |round2 ((f : ℚ) / 1024 ^ specIdx n) * 1024 ^ specIdx n - (n : ℚ)|
        ≤ 1024 ^ specIdx n / 200 + |(n : ℚ)| / 2 ^ 53) ∧
    (∀ u : Nat, u < specIdx n → 1024 ≤ (n : ℚ) / 1024 ^ u) ∧
    ((n : ℚ) / 1024 ^ specIdx n < 1024 ∨ specIdx n = 5) ∧
    (∀ e, pyFloat n = .error e → calculate_file_size n = .error e) := by
  refine ⟨?_, scaled_ge n, ?_, ?_⟩
  · intro f hf
    have hclose := pyFloat_close n f hf
    have hcfs : calculate_file_size n
        = .ok (round2 ((f : ℚ) / 1024 ^ specIdx n), units.getD (specIdx n) "bytes") := by
      unfold calculate_file_size
      simp only [hf]
      rw [sizeLoop_eq f, specIdx_pyFloat n f hf]
    refine ⟨hcfs, hclose, ?_⟩
    have hround := round2_abs ((f : ℚ) / 1024 ^ specIdx n)
    have hpow : (0 : ℚ) < 1024 ^ specIdx n := by positivity
    have hx : (f : ℚ) / 1024 ^ specIdx n * 1024 ^ specIdx n = (f : ℚ) :=
      div_mul_cancel₀ _ (ne_of_gt hpow)
    have key : round2 ((f : ℚ) / 1024 ^ specIdx n) * 1024 ^ specIdx n - (n : ℚ)
        = (round2 ((f : ℚ) / 1024 ^ specIdx n) - (f : ℚ) / 1024 ^ specIdx n)
            * 1024 ^ specIdx n + ((f : ℚ) - (n : ℚ)) := by
      rw [sub_mul, hx]
      ring
    rw [key]
    calc |(round2 ((f : ℚ) / 1024 ^ specIdx n) - (f : ℚ) / 1024 ^ specIdx n)
            * 1024 ^ specIdx n + ((f : ℚ) - (n : ℚ))|
        ≤ |(round2 ((f : ℚ) / 1024 ^ specIdx n) - (f : ℚ) / 1024 ^ specIdx n)
            * 1024 ^ specIdx n| + |(f : ℚ) - (n : ℚ)| := abs_add _ _
      _ = |round2 ((f : ℚ) / 1024 ^ specIdx n) - (f : ℚ) / 1024 ^ specIdx n|
            * 1024 ^ specIdx n + |(f : ℚ) - (n : ℚ)| := by rw [abs_mul, abs_of_pos hpow]
      _ ≤ (1 / 200) * 1024 ^ specIdx n + |(n : ℚ)| / 2 ^ 53 :=
          add_le_add (mul_le_mul_of_nonneg_right hround (le_of_lt hpow)) hclose
      _ = 1024 ^ specIdx n / 200 + |(n : ℚ)| / 2 ^ 53 := by ring
  · rcases eq_or_ne (specIdx n) 5 with h5 | h5
    · right; exact h5
    · left
      have hlt : specIdx n < 5 := lt_of_le_of_ne (specIdx_le_five n) h5
      have hup := specIdx_upper n hlt
      rw [div_lt_iff (by positivity)]
      calc (n : ℚ) < ((1024 ^ (specIdx n + 1) : Int) : ℚ) := by exact_mod_cast hup
        _ = 1024 * 1024 ^ specIdx n := by push_cast [pow_succ]; ring
  · intro e he
    unfold calculate_file_size
    simp only [he]

theorem calculate_file_size_amended_witness :
    calculate_file_size 123456789
      = .ok (round2 (((123456789 : Int) : ℚ) / 1024 ^ specIdx 123456789),
          units.getD (specIdx 123456789) "bytes") ∧
    1024 ≤ ((123456789 : Int) : ℚ) / 1024 ^ (1 : Nat) ∧
    (((123456789 : Int) : ℚ) / 1024 ^ specIdx 123456789 < 1024 ∨ specIdx 123456789 = 5) ∧
    calculate_file_size ((2 : Int) ^ 1200) = .error "int too large to convert to float" :=
  ⟨((calculate_file_size_amended 123456789).1 123456789 (pyFloat_small (by decide))).1,
   (calculate_file_size_amended 123456789).2.1 1 (by norm_num [specIdx]),
   (calculate_file_size_amended 123456789).2.2.1,
   (calculate_file_size_amended ((2 : Int) ^ 1200)).2.2.2 _ pyFloat_two_pow_overflow⟩

/-- C6 counterexample: at 512 bytes every unit index up to `PB` scales the
input below 1024, so the largest qualifying unit would be `PB`, yet the code
chooses `bytes` — the chosen unit is the smallest qualifying one, not the
largest. -/
theorem calculate_file_size_counterexample :
    calculate_file_size 512 = .ok (512, "bytes") ∧
    (∀ u : Nat, u ≤ 5 → (512 : ℚ) / 1024 ^ u < 1024) ∧
    units.getD 5 "bytes" = "PB" ∧
    ("bytes" : String) ≠ "PB" := by
  refine ⟨?_, ?_, by decide, by decide⟩
  · have hf : pyFloat 512 = .ok 512 := pyFloat_small (by decide)
    unfold calculate_file_size
    simp only [hf]
    rw [sizeLoop_eq 512]
    have h0 : specIdx 512 = 0 := by norm_num [specIdx]
    rw [h0]
    norm_num [round2, round2Num, units]
  · intro u hu
    interval_cases u <;> norm_num

/-- `findTool` returns `none` exactly when no registered tool has the
requested name. -/
lemma findTool_eq_none {α : Type} (tools : List (Tool α)) (nm : String)
    (h : ∀ t ∈ tools, t.name ≠ nm) : findTool tools nm = none := by
  induction tools with
  | nil => rfl
  | cons t rest ih =>
    unfold findTool
    rw [if_neg (h t (List.mem_cons_self t rest))]
    exact ih (fun t' ht' => h t' (List.mem_cons_of_mem t ht'))

/-- C1: `invoke_agent` is total and always returns a payload with a `result`
field; when any step of the body raises, the result is `"Error: "` followed
by the exception message, and when the body succeeds the result is its
value. -/
theorem invoke_agent_always_returns_result {α : Type} (llm : Oracle α)
    (tools : List (Tool α)) (payload : InPayload) :
    (∃ s, invoke_agent llm tools payload = ⟨s⟩) ∧
    (∀ e, (agentCore llm tools payload).1 = .error e →
      invoke_agent llm tools payload = ⟨"Error: " ++ e⟩) ∧
    (∀ s, (agentCore llm tools payload).1 = .ok s →
      invoke_agent llm tools payload = ⟨s⟩) := by
  refine ⟨?_, ?_, ?_⟩
  · unfold invoke_agent
    cases hE : (agentCore llm tools payload).1 with
    | ok s => exact ⟨s, rfl⟩
    | error e => exact ⟨"Error: " ++ e, rfl⟩
  · intro e he
    unfold invoke_agent
    rw [he]
  · intro s hs
    unfold invoke_agent
    rw [hs]

/-- A model client that always raises; used only by witnesses. -/
def llmErr : Oracle Unit := fun _ => .error "boom"

theorem invoke_agent_always_returns_result_witness :
    invoke_agent llmErr ([] : List (Tool Unit)) ⟨none⟩ = ⟨"Error: " ++ "boom"⟩ :=
  (invoke_agent_always_returns_result llmErr [] ⟨none⟩).2.1 "boom" rfl

/-- C2: the model is invoked at most twice per invocation; and whenever the
first reply requests tools and the tool round and second call succeed, the
result is exactly the second reply's text with the call count 2, with no
hypothesis on whether the second reply requests tools itself. -/
theorem one_round_of_tools_ceiling {α : Type} (llm : Oracle α)
    (tools : List (Tool α)) (payload : InPayload) :
    (agentCore llm tools payload).2 ≤ 2 ∧
    (∀ r1 toolMsgs r2,
      llm (initMessages α (payload.prompt.getD "Hello!")) = .ok r1 →
      r1.tool_calls.isEmpty = false →
      execToolCalls tools r1.tool_calls = .ok toolMsgs →
      llm (initMessages α (payload.prompt.getD "Hello!") ++ [Msg.ai r1] ++ toolMsgs) = .ok r2 →
      agentCore llm tools payload = (.ok r2.content, 2)) := by
  constructor
  · simp only [agentCore]
    split
    · norm_num
    · split
      · norm_num
      · split
        · norm_num
        · split <;> norm_num
  · intro r1 toolMsgs r2 h1 hb h3 h4
    simp only [agentCore, h1, h3, h4, hb, Bool.false_eq_true, if_false]

/-- A model client whose first reply requests one tool call and whose second
reply requests another; used only by witnesses. -/
def llmTwo : Oracle Unit := fun ms =>
  if ms.length ≤ 2 then .ok ⟨"first", [⟨"nope", (), some "id1"⟩]⟩
  else .ok ⟨"final", [⟨"again", (), some "id2"⟩]⟩

theorem one_round_of_tools_ceiling_witness :
    agentCore llmTwo ([] : List (Tool Unit)) ⟨some "hi"⟩ = (.ok "final", 2) ∧
    (agentCore llmTwo ([] : List (Tool Unit)) ⟨some "hi"⟩).2 ≤ 2 :=
  ⟨(one_round_of_tools_ceiling llmTwo [] ⟨some "hi"⟩).2
      ⟨"first", [⟨"nope", (), some "id1"⟩]⟩
      [Msg.tool "Tool nope not found" "id1"]
      ⟨"final", [⟨"again", (), some "id2"⟩]⟩
      rfl rfl rfl rfl,
   (one_round_of_tools_ceiling llmTwo [] ⟨some "hi"⟩).1⟩

/-- C3: a tool-call request whose name matches no registered tool produces
the synthesized `"Tool <name> not found"` tool-result message — no exception
— and the loop continues with the remaining requests. -/
theorem unknown_tool_soft_error {α : Type} (tools : List (Tool α)) (tc : ToolCallReq α)
    (rest : List (ToolCallReq α)) (h : ∀ t ∈ tools, t.name ≠ tc.name) :
    execOne tools tc = .ok (Msg.tool ("Tool " ++ tc.name ++ " not found") (tc.id.getD "")) ∧
    execToolCalls tools (tc :: rest)
      = (execToolCalls tools rest).map
          (fun ms => Msg.tool ("Tool " ++ tc.name ++ " not found") (tc.id.getD "") :: ms) := by
  have h1 : execOne tools tc
      = .ok (Msg.tool ("Tool " ++ tc.name ++ " not found") (tc.id.getD "")) := by
    unfold execOne
    rw [findTool_eq_none tools tc.name h]
  refine ⟨h1, ?_⟩
  simp only [execToolCalls]
  rw [h1]
  cases h2 : execToolCalls tools rest with
  | error e => rfl
  | ok ms => rfl

def hashTool0 : Tool Unit := ⟨"hash_string", fun _ => .ok "h"⟩
def tools0 : List (Tool Unit) := [hashTool0]
def tcUnknown : ToolCallReq Unit := ⟨"mystery", (), some "abc"⟩
def tcKnown : ToolCallReq Unit := ⟨"hash_string", (), some "i1"⟩
def tcNoId : ToolCallReq Unit := ⟨"hash_string", (), none⟩

theorem unknown_tool_soft_error_witness :
    execOne tools0 tcUnknown
      = .ok (Msg.tool ("Tool " ++ tcUnknown.name ++ " not found") (tcUnknown.id.getD "")) ∧
    execToolCalls tools0 (tcUnknown :: [tcKnown])
      = (execToolCalls tools0 [tcKnown]).map
          (fun ms =>
            Msg.tool ("Tool " ++ tcUnknown.name ++ " not found") (tcUnknown.id.getD "") :: ms) :=
  unknown_tool_soft_error tools0 tcUnknown [tcKnown] (by
    intro t ht
    simp only [tools0, List.mem_singleton] at ht
    subst ht
    decide)

/-- C8: a successful tool round produces exactly one tool-result message per
request, in emission order (message `i` is the result of request `i`); each
message carries the stringified tool result and the correlation id of its
request. -/
theorem tool_dispatch_order_correlation {α : Type} (tools : List (Tool α)) :
    (∀ calls msgs, execToolCalls tools calls = .ok msgs →
      msgs.length = calls.length ∧
      ∀ i (hc : i < calls.length) (hm : i < msgs.length),
        execOne tools (calls.get ⟨i, hc⟩) = .ok (msgs.get ⟨i, hm⟩)) ∧
    (∀ tc m, execOne tools tc = .ok m → ∃ r, m = Msg.tool r (tc.id.getD "")) ∧
    (∀ tc t r, findTool tools tc.name = some t → t.invoke tc.args = .ok r →
      execOne tools tc = .ok (Msg.tool r (tc.id.getD ""))) := by
  refine ⟨?_, ?_, ?_⟩
  · intro calls
    induction calls with
    | nil =>
      intro msgs h
      simp only [execToolCalls] at h
      injection h with h'
      subst h'
      exact ⟨rfl, fun i hc hm => absurd hc (by simp at hc ⊢)⟩
    | cons tc rest ih =>
      intro msgs h
      simp only [execToolCalls] at h
      cases hE : execOne tools tc with
      | error e => rw [hE] at h; cases h
      | ok m =>
        rw [hE] at h
        cases hR : execToolCalls tools rest with
        | error e => rw [hR] at h; cases h
        | ok ms =>
          rw [hR] at h
          injection h with h'
          subst h'
          obtain ⟨hlen, hidx⟩ := ih ms hR
          refine ⟨by simp [hlen], ?_⟩
          intro i hc hm
          cases i with
          | zero => exact hE
          | succ j =>
            have hc' : j < rest.length := by simpa using hc
            have hm' : j < ms.length := by simpa using hm
            exact hidx j hc' hm'
  · intro tc m h
    unfold execOne at h
    cases hF : findTool tools tc.name with
    | some t =>
      simp only [hF] at h
      cases hI : t.invoke tc.args with
      | ok r =>
        simp only [hI] at h
        injection h with h'
        exact ⟨r, h'.symm⟩
      | error e =>
        simp only [hI] at h
        exact Except.noConfusion h
    | none =>
      simp only [hF] at h
      injection h with h'
      exact ⟨"Tool " ++ tc.name ++ " not found", h'.symm⟩
  · intro tc t r hF hI
    unfold execOne
    simp only [hF, hI]

theorem tool_dispatch_order_correlation_witness :
    (([Msg.tool "h" "i1", Msg.tool "Tool mystery not found" "abc"] : List (Msg Unit)).length
        = [tcKnown, tcUnknown].length ∧
      ∀ i (hc : i < [tcKnown, tcUnknown].length)
        (hm : i < ([Msg.tool "h" "i1",
          Msg.tool "Tool mystery not found" "abc"] : List (Msg Unit)).length),
        execOne tools0 ([tcKnown, tcUnknown].get ⟨i, hc⟩)
          = .ok (([Msg.tool "h" "i1",
              Msg.tool "Tool mystery not found" "abc"] : List (Msg Unit)).get ⟨i, hm⟩)) ∧
    (∃ r, (Msg.tool "h" "i1" : Msg Unit) = Msg.tool r (tcKnown.id.getD "")) :=
  ⟨(tool_dispatch_order_correlation tools0).1 [tcKnown, tcUnknown]
      [Msg.tool "h" "i1", Msg.tool "Tool mystery not found" "abc"] rfl,
   (tool_dispatch_order_correlation tools0).2.1 tcKnown (Msg.tool "h" "i1") rfl⟩

/-- C9: a tool-call request with no `"id"` key does not make the loop fail:
the tool is still looked up and executed exactly as if the id were present,
and the resulting tool message carries the empty string as its correlation
id. -/
theorem missing_id_empty_correlation {α : Type} (tools : List (Tool α))
    (tc : ToolCallReq α) (h : tc.id = none) :
    execOne tools tc = execOne tools ⟨tc.name, tc.args, some ""⟩ ∧
    (∀ m, execOne tools tc = .ok m → ∃ r, m = Msg.tool r "") ∧
    (∀ t, findTool tools tc.name = some t →
      execOne tools tc = (t.invoke tc.args).map (fun r => Msg.tool r "")) := by
  have hid : tc.id.getD "" = "" := by rw [h]; rfl
  refine ⟨?_, ?_, ?_⟩
  · unfold execOne
    rw [h]
    rfl
  · intro m hm
    unfold execOne at hm
    cases hF : findTool tools tc.name with
    | some t =>
      simp only [hF] at hm
      cases hI : t.invoke tc.args with
      | ok r =>
        simp only [hI] at hm
        injection hm with h'
        exact ⟨r, by rw [← h', hid]⟩
      | error e =>
        simp only [hI] at hm
        exact Except.noConfusion hm
    | none =>
      simp only [hF] at hm
      injection hm with h'
      exact ⟨"Tool " ++ tc.name ++ " not found", by rw [← h', hid]⟩
  · intro t hF
    unfold execOne
    simp only [hF, hid]
    cases t.invoke tc.args <;> rfl

theorem missing_id_empty_correlation_witness :
    execOne tools0 tcNoId = execOne tools0 ⟨tcNoId.name, tcNoId.args, some ""⟩ ∧
    (∃ r, (Msg.tool "h" "" : Msg Unit) = Msg.tool r "") :=
  ⟨(missing_id_empty_correlation tools0 tcNoId rfl).1,
   (missing_id_empty_correlation tools0 tcNoId rfl).2.1 (Msg.tool "h" "") rfl⟩
